import Mathlib

set_option autoImplicit false

/-!
Shallow embedding of the Purview Connector SDK
(src/purview_connector_sdk): the entity model (models/entity.py), the
connector pipeline (connectors/base.py), the filesystem connector
(connectors/filesystem.py), the database connector
(connectors/database.py) and the catalog client (client.py).

Python dictionaries are modelled as insertion-ordered association lists
over String keys.  Raised exceptions are modelled as an error value
carrying the exception class name and the message text (the interpolated
entity payload of the message is elided).  Entity records are modelled at
the shape the SDK produces and consumes: a top-level dictionary whose
values are either atomic values or one nested attribute dictionary of
atomic values; exotic payloads (e.g. a string stored under
"attributes", where the Python `in` operator would perform substring search) are
outside the model.
-/

namespace PurviewSDK

/-- Atomic Python values appearing in Atlas attribute dictionaries. -/
inductive AVal where
  | str : String → AVal
  | int : Int → AVal
  | bool : Bool → AVal
  | noneV : AVal
deriving DecidableEq, Repr

/-- Values at the top level of an Atlas entity dictionary: an atom or a
nested attribute dictionary. -/
inductive EVal where
  | atom : AVal → EVal
  | dict : List (String × AVal) → EVal
deriving DecidableEq, Repr

/-- An attribute dictionary (Python `dict`, insertion-ordered). -/
abbrev Attrs := List (String × AVal)

/-- An Atlas entity dictionary as passed around by the SDK. -/
abbrev EntityDict := List (String × EVal)

/-- A raised Python exception: its class name and message. -/
structure PyErr where
  cls : String
  msg : String
deriving DecidableEq, Repr

/-- First value stored under a key (Python `d[k]` / `d.get(k)`). -/
def dlookup {α : Type} : List (String × α) → String → Option α
  | [], _ => Option.none
  | (k', v) :: rest, k => if k' = k then some v else dlookup rest k

/-- Python `k in d` on a dictionary. -/
def containsKey {α : Type} (d : List (String × α)) (k : String) : Bool :=
  (dlookup d k).isSome

/-- Python `entity.get("attributes", {})`, at the Atlas shape where the
value under "attributes" is a dictionary. -/
def entityAttrs (e : EntityDict) : Attrs :=
  match dlookup e "attributes" with
  | some (.dict d) => d
  | _ => []

/-- Embedding of `BaseConnector.validate_entities` (base.py lines 72-90): for each
entity in order, raise `PurviewConnectorError` if "typeName" is absent,
then if "attributes" is absent, then if "qualifiedName" is absent from
the attributes; return True when every entity passes. -/
def validate_entities : List EntityDict → Except PyErr Bool
  | [] => .ok true
  | e :: rest =>
    if containsKey e "typeName" then
      if containsKey e "attributes" then
        if containsKey (entityAttrs e) "qualifiedName" then
          validate_entities rest
        else .error ⟨"PurviewConnectorError", "Entity missing qualifiedName"⟩
      else .error ⟨"PurviewConnectorError", "Entity missing attributes"⟩
    else .error ⟨"PurviewConnectorError", "Entity missing typeName"⟩

/-- The per-entity condition `validate_entities` enforces. -/
def entity_passes (e : EntityDict) : Bool :=
  containsKey e "typeName" && containsKey e "attributes"
    && containsKey (entityAttrs e) "qualifiedName"

/-- Result dictionary of `PurviewClient.bulk_create_entities`
(client.py lines 197-211); the dictionary has this fixed shape. -/
structure BulkResult where
  entities_created : Nat
  status : String
deriving DecidableEq, Repr

/-- Embedding of `PurviewClient.bulk_create_entities`: returns
`{"entities_created": len(entities), "status": "success"}`. -/
def bulk_create_entities (entities : List EntityDict) : BulkResult :=
  ⟨entities.length, "success"⟩

/-- Embedding of `BaseConnector.ingest_to_purview` (base.py lines 92-110): validate,
then call the bulk create of the catalog client.  The second component is
the instrumented log of catalog calls (each element one
`bulk_create_entities` invocation, recording its argument). -/
def ingest_to_purview (entities : List EntityDict) :
    Except PyErr BulkResult × List (List EntityDict) :=
  match validate_entities entities with
  | .error err => (.error err, [])
  | .ok _ => (.ok (bulk_create_entities entities), [entities])

/-- A connector: the two abstract methods of `BaseConnector`,
specialised by each concrete connector; `μ` is the metadata type. -/
structure Connector (μ : Type) where
  extract_metadata : Except PyErr μ
  transform_to_atlas : μ → Except PyErr (List EntityDict)

/-- The summary dictionary returned by `scan_and_ingest`; it has this
fixed shape (base.py lines 135-140). -/
structure ScanSummary (μ : Type) where
  status : String
  entities_extracted : Nat
  entities_created : Nat
  metadata : μ
deriving Repr

/-- Embedding of `BaseConnector.scan_and_ingest` (base.py lines 112-140): extract,
transform, ingest; on success return the summary whose
`entities_created` is `result.get("entities_created", 0)` (the key is
always present in the client result).  Exceptions propagate.  The
second component is the catalog-call log. -/
def scan_and_ingest {μ : Type} (c : Connector μ) :
    Except PyErr (ScanSummary μ) × List (List EntityDict) :=
  match c.extract_metadata with
  | .error err => (.error err, [])
  | .ok metadata =>
    match c.transform_to_atlas metadata with
    | .error err => (.error err, [])
    | .ok entities =>
      match ingest_to_purview entities with
      | (.error err, log) => (.error err, log)
      | (.ok result, log) =>
        (.ok ⟨"success", entities.length, result.entities_created, metadata⟩, log)

/-- ASCII lowering of one character, `'A'..'Z'` to `'a'..'z'`. -/
def lowerChar (c : Char) : Char :=
  if 'A' ≤ c ∧ c ≤ 'Z' then Char.ofNat (c.toNat + 32) else c

/-- Python `str.lower()`, modelled on the ASCII range (every string the
SDK lowercases — class names and file extensions — is ASCII). -/
def pyLower (s : String) : String := ⟨s.toList.map lowerChar⟩

/-- Python `str.strip("/")`: drop every leading and trailing slash. -/
def strip_slashes (s : String) : String :=
  ⟨((s.toList.dropWhile (· = '/')).reverse.dropWhile (· = '/')).reverse⟩

/-- Python truthiness of an `Optional[str]` part: `None` and `""` are
falsy. -/
def truthyStr : Option String → Bool
  | Option.none => false
  | some s => s != ""

/-- Embedding of `BaseConnector.create_qualified_name` (base.py lines 142-153):
`clean_parts = [str(p).strip("/") for p in parts if p]`, then the
qualified-name prefix of the connector followed by the "/"-join. -/
def create_qualified_name (pfx : String) (parts : List (Option String)) : String :=
  pfx ++ String.intercalate "/" ((parts.filter truthyStr).map (fun p => strip_slashes (p.getD "")))

/-- Embedding of `BaseConnector._generate_prefix`: the class name lowercased
followed by "://". -/
def generate_pfx (className : String) : String :=
  pyLower className ++ "://"

/-- The qualified-name prefix chosen by `BaseConnector.__init__`:
`qualified_name_prefix or self._generate_prefix()`. -/
def init_qn_pfx (className : String) (supplied : Option String) : String :=
  match supplied with
  | some s => if s != "" then s else generate_pfx className
  | Option.none => generate_pfx className

/-- Embedding of `EntityStatus` enumeration (models/entity.py lines 10-13). -/
inductive EntityStatus where
  | ACTIVE
  | DELETED
deriving DecidableEq, Repr

/-- Member accessor `.value` of the status enumeration. -/
def EntityStatus.value : EntityStatus → String
  | .ACTIVE => "ACTIVE"
  | .DELETED => "DELETED"

/-- Python `EntityStatus(s)`: the member with value `s`, or a
`ValueError` (`Option.none` here) when no member matches. -/
def EntityStatus.ofValue (s : String) : Option EntityStatus :=
  if s = "ACTIVE" then some .ACTIVE
  else if s = "DELETED" then some .DELETED
  else Option.none

/-- The `Entity` dataclass (models/entity.py lines 26-40). -/
structure Entity where
  type_name : String
  qualified_name : String
  name : String
  attributes : Attrs := []
  guid : Option String := Option.none
  status : EntityStatus := .ACTIVE
  created_by : Option String := Option.none
  updated_by : Option String := Option.none
  create_time : Option Int := Option.none
  update_time : Option Int := Option.none
deriving DecidableEq, Repr

/-- Python dict update at one key: replace in place when the key is
present, else append (insertion order). -/
def dictInsert (d : Attrs) (k : String) (v : AVal) : Attrs :=
  if containsKey d k then d.map (fun kv => if kv.1 = k then (k, v) else kv)
  else d ++ [(k, v)]

/-- Python `{**base, **extra}`: fold the entries of `extra` into `base`,
overriding in place. -/
def dictMerge (base extra : Attrs) : Attrs :=
  extra.foldl (fun d kv => dictInsert d kv.1 kv.2) base

/-- Embedding of `Entity.to_atlas_dict` (models/entity.py lines 42-62): promote
`qualified_name` and `name` into the attribute dictionary (the
own attributes of the dataclass override them, `{"qualifiedName": ...,
"name": ..., **self.attributes}`), always emit "status", and emit
"guid" only when the guid is truthy. -/
def Entity.to_atlas_dict (e : Entity) : EntityDict :=
  [("typeName", .atom (.str e.type_name)),
   ("attributes", .dict (dictMerge
      [("qualifiedName", .str e.qualified_name), ("name", .str e.name)]
      e.attributes)),
   ("status", .atom (.str e.status.value))]
  ++ (match e.guid with
      | some g => if g != "" then [("guid", .atom (.str g))] else []
      | Option.none => [])

/-- Python `data.get(k, dflt)` reading a string field of the entity
dictionary (non-string payloads under these keys are outside the
model). -/
def getStrOr (d : EntityDict) (k dflt : String) : String :=
  match dlookup d k with
  | some (.atom (.str s)) => s
  | _ => dflt

/-- Python `attributes.get(k, dflt)` reading a string attribute. -/
def attrStrOr (d : Attrs) (k dflt : String) : String :=
  match dlookup d k with
  | some (.str s) => s
  | _ => dflt

/-- Embedding of `Entity.from_atlas_dict` (models/entity.py lines 64-85): read the
promoted fields back out of the attribute dictionary, keep the other
attributes (`{k: v for k, v in attributes.items() if k not in
["qualifiedName", "name"]}`), and rebuild the status from its value
(raising `ValueError` on an unknown value). -/
def Entity.from_atlas_dict (data : EntityDict) : Except PyErr Entity :=
  let attributes := entityAttrs data
  match EntityStatus.ofValue (getStrOr data "status" "ACTIVE") with
  | Option.none => .error ⟨"ValueError", "not a valid EntityStatus"⟩
  | some st =>
    .ok { type_name := getStrOr data "typeName" ""
        , qualified_name := attrStrOr attributes "qualifiedName" ""
        , name := attrStrOr attributes "name" ""
        , attributes := attributes.filter
            (fun kv => kv.1 != "qualifiedName" && kv.1 != "name")
        , guid := match dlookup data "guid" with
                  | some (.atom (.str g)) => some g
                  | _ => Option.none
        , status := st }

/-- One filesystem entry as yielded by `root_path.glob(pattern)`:
either a file (with its `Path.suffix`, `stat().st_size` and
`stat().st_mtime`) or a directory.  Entries that are neither a file
nor a directory are skipped by the if/elif of the source and are not
modelled. -/
inductive FSItem where
  | file (name path suffix : String) (size : Nat) (mtime : Int)
  | dir (name path : String)
deriving DecidableEq, Repr

/-- The filesystem as observed by the connector: whether the root path
exists, its string form, and the glob results in traversal order
(already reflecting the recursive/non-recursive pattern). -/
structure FileSystem where
  rootExists : Bool
  root_path : String
  items : List FSItem
deriving DecidableEq, Repr

/-- A file record built by `FileSystemConnector.extract_metadata`. -/
structure FileRecord where
  name : String
  path : String
  size : Nat
  extension : String
  modified : Int
deriving DecidableEq, Repr

/-- A directory record built by `FileSystemConnector.extract_metadata`. -/
structure DirRecord where
  name : String
  path : String
deriving DecidableEq, Repr

/-- The metadata dictionary returned by
`FileSystemConnector.extract_metadata`; when the root path does not
exist the returned dictionary has no "root_path" key (`Option.none`). -/
structure FSMetadata where
  root_path : Option String
  files : List FileRecord
  directories : List DirRecord
deriving DecidableEq, Repr

/-- The extension-filter guard (filesystem.py lines 71-73): skip the
item iff `self.file_extensions` is truthy (neither None nor []), the
item is a file, and `item.suffix.lower() not in self.file_extensions`. -/
def extSkips (exts : Option (List String)) (it : FSItem) : Bool :=
  match exts, it with
  | some es, .file _ _ suf _ _ => !(es.isEmpty) && !(es.contains (pyLower suf))
  | _, _ => false

/-- The scan loop of `FileSystemConnector.extract_metadata` (lines
69-87): accumulate file and directory records in traversal order,
applying the extension filter. -/
def scanItems (exts : Option (List String)) : List FSItem → List FileRecord × List DirRecord
  | [] => ([], [])
  | it :: rest =>
    let acc := scanItems exts rest
    if extSkips exts it then acc
    else
      match it with
      | .file n p suf sz mt => (⟨n, p, sz, suf, mt⟩ :: acc.1, acc.2)
      | .dir n p => (acc.1, ⟨n, p⟩ :: acc.2)

/-- Embedding of `FileSystemConnector.extract_metadata` (filesystem.py lines
50-95): empty result (without "root_path") when the root does not
exist, else the filtered scan. -/
def fs_extract_metadata (exts : Option (List String)) (fs : FileSystem) : FSMetadata :=
  if fs.rootExists then
    ⟨some fs.root_path, (scanItems exts fs.items).1, (scanItems exts fs.items).2⟩
  else ⟨Option.none, [], []⟩

/-- A database column as in the extracted metadata
(database.py lines 67-71); `nullable` is always present there. -/
structure DbColumn where
  name : String
  type : String
  nullable : Bool
deriving DecidableEq, Repr

/-- A database table with its columns. -/
structure DbTable where
  name : String
  columns : List DbColumn
deriving DecidableEq, Repr

/-- A database schema with its tables. -/
structure DbSchema where
  name : String
  tables : List DbTable
deriving DecidableEq, Repr

/-- Database metadata as returned by
`DatabaseConnector.extract_metadata`. -/
structure DbMetadata where
  database_name : String
  schemas : List DbSchema
deriving DecidableEq, Repr

/-- Embedding of `DatabaseConnector.extract_metadata` (database.py lines 48-78):
the placeholder metadata, one schema `dbo` with one table `customers`
and columns id, name, email. -/
def db_extract_metadata : DbMetadata :=
  ⟨"sample_database",
   [⟨"dbo",
     [⟨"customers",
       [⟨"id", "int", false⟩, ⟨"name", "varchar", false⟩, ⟨"email", "varchar", true⟩]⟩]⟩]⟩

/-- A column entity (database.py lines 124-138). -/
def columnEntity (pfx db_name schema_name table_name : String) (col : DbColumn) : EntityDict :=
  [("typeName", .atom (.str "rdbms_column")),
   ("attributes", .dict
     [("qualifiedName", .str (create_qualified_name pfx
         [some db_name, some schema_name, some table_name, some col.name])),
      ("name", .str col.name),
      ("data_type", .str col.type),
      ("isNullable", .bool col.nullable)])]

/-- A table entity followed by its column entities
(database.py lines 108-138). -/
def tableEntities (pfx db_name schema_name : String) (t : DbTable) : List EntityDict :=
  [("typeName", .atom (.str "rdbms_table")),
   ("attributes", .dict
     [("qualifiedName", .str (create_qualified_name pfx
         [some db_name, some schema_name, some t.name])),
      ("name", .str t.name),
      ("description", .str ("Table in " ++ schema_name ++ " schema"))])]
  :: t.columns.map (columnEntity pfx db_name schema_name t.name)

/-- All entities of one schema, per table. -/
def schemaEntities (pfx db_name : String) (s : DbSchema) : List EntityDict :=
  (s.tables.map (tableEntities pfx db_name s.name)).flatten

/-- Embedding of `DatabaseConnector.transform_to_atlas` (database.py lines 80-141):
the database entity first, then per schema, per table, the table
entity followed by its column entities. -/
def db_transform_to_atlas (pfx source_type : String) (md : DbMetadata) : List EntityDict :=
  [("typeName", .atom (.str "rdbms_db")),
   ("attributes", .dict
     [("qualifiedName", .str (create_qualified_name pfx [some md.database_name])),
      ("name", .str md.database_name),
      ("description", .str (source_type ++ " database"))])]
  :: (md.schemas.map (schemaEntities pfx md.database_name)).flatten

/-- A `DatabaseConnector` with the default qualified-name prefix
(`databaseconnector://`), as a `Connector`. -/
def databaseConnector (source_type : String) : Connector DbMetadata :=
  ⟨.ok db_extract_metadata,
   fun md => .ok (db_transform_to_atlas (generate_pfx "DatabaseConnector") source_type md)⟩

/-! ### Concrete instances used by witnesses and counterexamples -/

/-- The entities produced by the database connector pipeline with the
default prefix and source type `sql_server`. -/
def dbEntities : List EntityDict :=
  db_transform_to_atlas (generate_pfx "DatabaseConnector") "sql_server" db_extract_metadata

/-- A filesystem with one matching file, one non-matching file and one
subdirectory, as in the filesystem scenario of the spec. -/
def demoFS : FileSystem :=
  ⟨true, "/data", [.file "a.csv" "/data/a.csv" ".csv" 100 0,
                   .file "b.txt" "/data/b.txt" ".txt" 5 0,
                   .dir "sub" "/data/sub"]⟩

/-- A filesystem with a single `.csv` file, scanned against an
upper-case allow-list entry. -/
def upperListFS : FileSystem :=
  ⟨true, "/r", [.file "a.csv" "/r/a.csv" ".csv" 100 0]⟩

/-- An entity record whose "typeName" is present but empty. -/
def entityEmptyTypeName : EntityDict :=
  [("typeName", .atom (.str "")), ("attributes", .dict [("qualifiedName", .str "x")])]

/-- An entity record whose attributes lack "qualifiedName". -/
def entityNoQualifiedName : EntityDict :=
  [("typeName", .atom (.str "DataSet")), ("attributes", .dict [("name", .str "n")])]

/-- A connector whose transform emits `entityNoQualifiedName`. -/
def badConnector : Connector Unit :=
  ⟨.ok (), fun _ => .ok [entityNoQualifiedName]⟩

/-- An entity whose own attributes contain the promoted key
"qualifiedName". -/
def entityWithPromotedKey : Entity :=
  { type_name := "t"
    qualified_name := "q"
    name := "n"
    attributes := [("qualifiedName", AVal.str "x")] }

/-- An entity with a non-empty guid. -/
def entityWithGuid : Entity :=
  { type_name := "t"
    qualified_name := "q"
    name := "n"
    guid := some "g1" }

/-- A plain entity whose attributes avoid the promoted keys. -/
def plainEntity : Entity :=
  { type_name := "t"
    qualified_name := "q"
    name := "n"
    attributes := [("size", AVal.int 10), ("owner", AVal.str "alice")] }

/-- The files side of the extension filter, per item. -/
def fileKeep (exts : List String) (it : FSItem) : Option FileRecord :=
  match it with
  | .file n p suf sz mt =>
    if exts.contains (pyLower suf) then some ⟨n, p, sz, suf, mt⟩ else Option.none
  | .dir _ _ => Option.none

/-- The directories side of the scan, per item. -/
def dirKeep (it : FSItem) : Option DirRecord :=
  match it with
  | .file _ _ _ _ _ => Option.none
  | .dir n p => some ⟨n, p⟩

/-! ### Dictionary lemmas -/

@[simp]
lemma dlookup_nil {α : Type} (k : String) : dlookup ([] : List (String × α)) k = Option.none := rfl

@[simp]
lemma dlookup_cons {α : Type} (k' : String) (v : α) (rest : List (String × α)) (k : String) :
    dlookup ((k', v) :: rest) k = if k' = k then some v else dlookup rest k := rfl

lemma dlookup_append {α : Type} (a b : List (String × α)) (k : String) :
    dlookup (a ++ b) k = ((dlookup a k).rec (dlookup b k) (fun v => some v)) := by
  induction a with
  | nil => simp
  | cons hd tl ih =>
    obtain ⟨k', v⟩ := hd
    by_cases h : k' = k <;> simp [h, ih]

@[simp]
lemma containsKey_nil {α : Type} (k : String) : containsKey ([] : List (String × α)) k = false := rfl

lemma containsKey_cons {α : Type} (k' : String) (v : α) (rest : List (String × α)) (k : String) :
    containsKey ((k', v) :: rest) k = if k' = k then true else containsKey rest k := by
  by_cases h : k' = k <;> simp [containsKey, h]

lemma containsKey_append {α : Type} (a b : List (String × α)) (k : String) :
    containsKey (a ++ b) k = (containsKey a k || containsKey b k) := by
  induction a with
  | nil => simp [containsKey]
  | cons hd tl ih =>
    obtain ⟨k', v⟩ := hd
    by_cases h : k' = k <;> simp [containsKey_cons, h, ih]

lemma containsKey_eq_false_iff {α : Type} (d : List (String × α)) (k : String) :
    containsKey d k = false ↔ k ∉ d.map Prod.fst := by
  induction d with
  | nil => simp
  | cons hd tl ih =>
    obtain ⟨k', v⟩ := hd
    by_cases h : k' = k
    · simp [containsKey_cons, h]
    · simp [containsKey_cons, h, ih]
      tauto

lemma dictInsert_of_fresh (d : Attrs) (k : String) (v : AVal)
    (h : containsKey d k = false) : dictInsert d k v = d ++ [(k, v)] := by
  simp [dictInsert, h]

lemma dictMerge_of_fresh (extra : Attrs) :
    ∀ base : Attrs, (∀ k ∈ extra.map Prod.fst, containsKey base k = false) →
      (extra.map Prod.fst).Nodup → dictMerge base extra = base ++ extra := by
  induction extra with
  | nil => intro base _ _; simp [dictMerge]
  | cons hd tl ih =>
    intro base hfresh hnd
    obtain ⟨k, v⟩ := hd
    have hk : containsKey base k = false := hfresh k (by simp)
    have hnd' : (k :: tl.map Prod.fst).Nodup := by
      rw [List.map_cons] at hnd
      exact hnd
    obtain ⟨hknm, hndtl⟩ := List.nodup_cons.mp hnd'
    have step : dictMerge base ((k, v) :: tl) = dictMerge (base ++ [(k, v)]) tl := by
      simp [dictMerge, dictInsert_of_fresh base k v hk]
    rw [step, ih (base ++ [(k, v)])]
    · simp
    · intro k' hk'
      have hne : k' ≠ k := by
        intro hEq
        subst hEq
        exact hknm hk'
      have hb : containsKey base k' = false := hfresh k' (by simp [hk'])
      simp [containsKey_append, hb, containsKey_cons, hne.symm]
    · exact hndtl

/-! ### Validation lemmas -/

lemma validate_cons_of_pass (e : EntityDict) (rest : List EntityDict)
    (h : entity_passes e = true) :
    validate_entities (e :: rest) = validate_entities rest := by
  simp [entity_passes, Bool.and_eq_true] at h
  simp [validate_entities, h.1.1, h.1.2, h.2]

lemma validate_cons_of_fail (e : EntityDict) (rest : List EntityDict)
    (h : entity_passes e = false) :
    validate_entities (e :: rest) = validate_entities [e] := by
  by_cases h1 : containsKey e "typeName"
  · by_cases h2 : containsKey e "attributes"
    · by_cases h3 : containsKey (entityAttrs e) "qualifiedName"
      · simp [entity_passes, h1, h2, h3] at h
      · simp [validate_entities, h1, h2, h3]
    · simp [validate_entities, h1, h2]
  · simp [validate_entities, h1]

lemma validate_eq_ok_iff (es : List EntityDict) :
    validate_entities es = .ok true ↔ ∀ e ∈ es, entity_passes e = true := by
  induction es with
  | nil => simp [validate_entities]
  | cons e rest ih =>
    by_cases hp : entity_passes e
    · rw [validate_cons_of_pass e rest hp]
      simp [hp, ih]
    · rw [validate_cons_of_fail e rest (by simpa using hp)]
      have hp' : entity_passes e = false := by simpa using hp
      constructor
      · intro hok
        by_cases h1 : containsKey e "typeName"
        · by_cases h2 : containsKey e "attributes"
          · by_cases h3 : containsKey (entityAttrs e) "qualifiedName"
            · simp [entity_passes, h1, h2, h3] at hp'
            · simp [validate_entities, h1, h2, h3] at hok
          · simp [validate_entities, h1, h2] at hok
        · simp [validate_entities, h1] at hok
      · intro hall
        exact absurd (hall e (by simp)) (by simp [hp'])

lemma validate_error_of_fail (es : List EntityDict)
    (h : ∃ e ∈ es, entity_passes e = false) :
    ∃ err, validate_entities es = .error err ∧ err.cls = "PurviewConnectorError" := by
  induction es with
  | nil => simp at h
  | cons e rest ih =>
    by_cases hp : entity_passes e
    · rw [validate_cons_of_pass e rest hp]
      apply ih
      obtain ⟨x, hx, hfail⟩ := h
      rcases List.mem_cons.mp hx with hEq | hmem
      · exact absurd hp (by simp [hEq ▸ hfail])
      · exact ⟨x, hmem, hfail⟩
    · have hp' : entity_passes e = false := by simpa using hp
      rw [validate_cons_of_fail e rest hp']
      by_cases h1 : containsKey e "typeName"
      · by_cases h2 : containsKey e "attributes"
        · by_cases h3 : containsKey (entityAttrs e) "qualifiedName"
          · simp [entity_passes, h1, h2, h3] at hp'
          · exact ⟨⟨"PurviewConnectorError", "Entity missing qualifiedName"⟩,
              by simp [validate_entities, h1, h2, h3], rfl⟩
        · exact ⟨⟨"PurviewConnectorError", "Entity missing attributes"⟩,
            by simp [validate_entities, h1, h2], rfl⟩
      · exact ⟨⟨"PurviewConnectorError", "Entity missing typeName"⟩,
          by simp [validate_entities, h1], rfl⟩

/-- Serialize-then-deserialize, computed: the promoted fields are read
back from the merged attribute dictionary, the remaining attributes
are the merged dictionary minus the promoted keys, and a truthy guid
survives. -/
lemma from_to_atlas_eq (e : Entity) :
    Entity.from_atlas_dict (Entity.to_atlas_dict e) = .ok
      { type_name := e.type_name
        qualified_name := attrStrOr (dictMerge
          [("qualifiedName", AVal.str e.qualified_name), ("name", AVal.str e.name)]
          e.attributes) "qualifiedName" ""
        name := attrStrOr (dictMerge
          [("qualifiedName", AVal.str e.qualified_name), ("name", AVal.str e.name)]
          e.attributes) "name" ""
        attributes := (dictMerge
          [("qualifiedName", AVal.str e.qualified_name), ("name", AVal.str e.name)]
          e.attributes).filter (fun kv => kv.1 != "qualifiedName" && kv.1 != "name")
        guid := match e.guid with
                | some g => if g != "" then some g else Option.none
                | Option.none => Option.none
        status := e.status } := by
  obtain ⟨tn, qn, nm, attrs, guid, st, cb, ub, ct, ut⟩ := e
  cases guid with
  | none => cases st <;> rfl
  | some g =>
    by_cases hg : g = ""
    · subst hg
      cases st <;> rfl
    · have hb : (g != "") = true := by simp [hg]
      have hTA : Entity.to_atlas_dict ⟨tn, qn, nm, attrs, some g, st, cb, ub, ct, ut⟩ =
          [("typeName", .atom (.str tn)),
           ("attributes", .dict (dictMerge
             [("qualifiedName", .str qn), ("name", .str nm)] attrs)),
           ("status", .atom (.str st.value))] ++ [("guid", .atom (.str g))] := by
        simp [Entity.to_atlas_dict, hb]
      rw [hTA]
      simp only [hb]
      cases st <;> rfl

lemma scanItems_spec (exts : List String) (hne : exts ≠ []) (items : List FSItem) :
    (scanItems (some exts) items).1 = items.filterMap (fileKeep exts)
    ∧ (scanItems (some exts) items).2 = items.filterMap dirKeep := by
  have hie : exts.isEmpty = false := by
    cases exts with
    | nil => exact absurd rfl hne
    | cons a l => rfl
  induction items with
  | nil => exact ⟨rfl, rfl⟩
  | cons it rest ih =>
    cases it with
    | file n p suf sz mt =>
      by_cases hc : pyLower suf ∈ exts
      · simp [scanItems, extSkips, fileKeep, dirKeep, hie, hc, ih.1, ih.2]
      · simp [scanItems, extSkips, fileKeep, dirKeep, hie, hc, ih.1, ih.2]
    | dir n p =>
      simp [scanItems, extSkips, fileKeep, dirKeep, ih.1, ih.2]

/-! ### Claims -/

/-- C9: an empty entity batch is a successful no-op at every pipeline
stage: `validate_entities([])` returns True without raising, and
`ingest_to_purview([])` returns
`{entities_created: 0, status: "success"}`. -/
theorem empty_batch_noop :
    validate_entities [] = .ok true
    ∧ (ingest_to_purview []).1 = .ok ⟨0, "success"⟩ :=
  ⟨rfl, rfl⟩

/-- C5: on the placeholder metadata (one schema `dbo`, one table
`customers`, columns id/name/email), `DatabaseConnector.transform_to_atlas`
yields exactly 5 entities in the order database, table, column(id),
column(name), column(email), and the `scan_and_ingest` summary reports
`entities_extracted = 5`. -/
theorem database_scenario_spec :
    dbEntities.length = 5
    ∧ dbEntities.map (fun e => getStrOr e "typeName" "") =
        ["rdbms_db", "rdbms_table", "rdbms_column", "rdbms_column", "rdbms_column"]
    ∧ dbEntities.map (fun e => attrStrOr (entityAttrs e) "name" "") =
        ["sample_database", "customers", "id", "name", "email"]
    ∧ (scan_and_ingest (databaseConnector "sql_server")).1 =
        .ok ⟨"success", 5, 5, db_extract_metadata⟩ :=
  ⟨rfl, rfl, rfl, rfl⟩

/-- C7: `create_qualified_name` prepends the connector prefix to the
slash-join of the falsy-filtered, slash-stripped parts; inserting an
empty or `None` part anywhere leaves the result unchanged; in
particular `("a", "", None, "b")` equals `("a", "b")`; and the prefix
defaults to the class name lowercased followed by `://` when not
supplied at construction. -/
theorem create_qualified_name_spec :
    (∀ (pfx : String) (parts : List (Option String)),
      create_qualified_name pfx parts =
        pfx ++ String.intercalate "/"
          (((parts.filterMap id).filter (fun s => s != "")).map strip_slashes))
    ∧ (∀ (pfx : String) (ps qs : List (Option String)),
        create_qualified_name pfx (ps ++ some "" :: qs) = create_qualified_name pfx (ps ++ qs))
    ∧ (∀ (pfx : String) (ps qs : List (Option String)),
        create_qualified_name pfx (ps ++ Option.none :: qs) = create_qualified_name pfx (ps ++ qs))
    ∧ (∀ pfx : String,
        create_qualified_name pfx [some "a", some "", Option.none, some "b"] =
          create_qualified_name pfx [some "a", some "b"])
    ∧ (∀ className : String, init_qn_pfx className Option.none = pyLower className ++ "://") := by
  have hrepr : ∀ parts : List (Option String),
      (parts.filter truthyStr).map (fun p => strip_slashes (p.getD "")) =
        ((parts.filterMap id).filter (fun s => s != "")).map strip_slashes := by
    intro parts
    induction parts with
    | nil => rfl
    | cons hd tl ih =>
      cases hd with
      | none => simpa [truthyStr] using ih
      | some s =>
        by_cases hs : s = ""
        · subst hs
          simpa [truthyStr] using ih
        · simp [truthyStr, hs, ih]
  refine ⟨?_, ?_, ?_, ?_, ?_⟩
  · intro pfx parts
    rw [create_qualified_name, hrepr]
  · intro pfx ps qs
    simp [create_qualified_name, List.filter_append, truthyStr]
  · intro pfx ps qs
    simp [create_qualified_name, List.filter_append, truthyStr]
  · intro pfx
    rfl
  · intro className
    rfl

/-- C8: when the root path does not exist, the filesystem connector
method `extract_metadata` returns empty files and directories lists (and no
"root_path" key) without raising, whatever the extension filter and
whatever the scan would otherwise see. -/
theorem missing_root_empty_result (exts : Option (List String)) (fs : FileSystem)
    (h : fs.rootExists = false) :
    fs_extract_metadata exts fs = ⟨Option.none, [], []⟩ := by
  simp [fs_extract_metadata, h]

/-- Witness for C8 at a concrete missing root. -/
theorem missing_root_empty_result_witness :
    fs_extract_metadata Option.none ⟨false, "/nope", [.dir "x" "/nope/x"]⟩ =
      ⟨Option.none, [], []⟩ :=
  missing_root_empty_result Option.none ⟨false, "/nope", [.dir "x" "/nope/x"]⟩ rfl

/-- C10: `to_atlas_dict` emits a "guid" key iff the guid is truthy
(so an empty-string guid serializes like a `None` guid), and always
emits "status" with the string value of the status enumeration. -/
theorem to_atlas_guid_status_spec (e : Entity) :
    (containsKey (Entity.to_atlas_dict e) "guid" = true ↔
      (e.guid ≠ Option.none ∧ e.guid ≠ some ""))
    ∧ dlookup (Entity.to_atlas_dict e) "status" = some (.atom (.str e.status.value))
    ∧ Entity.to_atlas_dict { e with guid := some "" } =
        Entity.to_atlas_dict { e with guid := Option.none } := by
  refine ⟨?_, rfl, ?_⟩
  · cases hg : e.guid with
    | none => simp [Entity.to_atlas_dict, hg, containsKey_append, containsKey_cons, containsKey]
    | some g =>
      by_cases hgs : g = ""
      · subst hgs
        simp [Entity.to_atlas_dict, hg, containsKey_append, containsKey_cons, containsKey]
      · have hb : (g != "") = true := by simp [hgs]
        simp [Entity.to_atlas_dict, hg, hb, containsKey_append, containsKey_cons, containsKey, hgs]
  · simp [Entity.to_atlas_dict]

/-- Witness for C10 at a concrete entity with a non-empty guid. -/
theorem to_atlas_guid_status_spec_witness :
    containsKey (Entity.to_atlas_dict entityWithGuid) "guid" = true :=
  (to_atlas_guid_status_spec entityWithGuid).1.mpr ⟨by decide, by decide⟩

/-- C1 (amended): validation succeeds iff every record has a
"typeName" key (its value may be empty), an "attributes" key, and a
"qualifiedName" key inside the attributes; any violation raises
`PurviewConnectorError` (the base error class of the SDK), and the
first missing field of the first violating record determines the error, aborting
the whole batch regardless of what follows. -/
theorem validate_entities_presence_spec (es : List EntityDict) :
    (validate_entities es = .ok true ↔ ∀ e ∈ es, entity_passes e = true)
    ∧ ((∃ e ∈ es, entity_passes e = false) →
        ∃ err, validate_entities es = .error err ∧ err.cls = "PurviewConnectorError")
    ∧ (∀ (es₁ : List EntityDict) (e : EntityDict) (es₂ : List EntityDict) (err : PyErr),
        es = es₁ ++ e :: es₂ →
        (∀ x ∈ es₁, entity_passes x = true) →
        validate_entities [e] = .error err →
        validate_entities es = .error err) := by
  refine ⟨validate_eq_ok_iff es, validate_error_of_fail es, ?_⟩
  intro es₁ e es₂ err hsplit hpass herr
  subst hsplit
  induction es₁ with
  | nil =>
    simp only [List.nil_append]
    by_cases hp : entity_passes e
    · rw [validate_cons_of_pass e [] hp] at herr
      simp [validate_entities] at herr
    · rw [validate_cons_of_fail e es₂ (by simpa using hp)]
      exact herr
  | cons x xs ih =>
    have hx : entity_passes x = true := hpass x (by simp)
    rw [List.cons_append, validate_cons_of_pass x (xs ++ e :: es₂) hx]
    exact ih (fun y hy => hpass y (by simp [hy]))

/-- Witness for C1: a batch whose sole entity lacks "attributes" fails
with the base connector error. -/
theorem validate_entities_presence_spec_witness :
    ∃ err, validate_entities [[("typeName", EVal.atom (AVal.str "DataSet"))]] = .error err
      ∧ err.cls = "PurviewConnectorError" :=
  (validate_entities_presence_spec [[("typeName", EVal.atom (AVal.str "DataSet"))]]).2.1
    ⟨[("typeName", EVal.atom (AVal.str "DataSet"))], by simp, by decide⟩

/-- Counterexample to C1 as stated: a record whose "typeName" is
present but empty validates successfully, although the claim requires
a non-empty type name for validation to succeed. -/
theorem validate_accepts_empty_typeName :
    validate_entities [entityEmptyTypeName] = .ok true
    ∧ dlookup entityEmptyTypeName "typeName" = some (.atom (.str "")) :=
  ⟨rfl, rfl⟩

/-- C4: whenever the extracted-and-transformed batch contains an entity
whose attributes lack "qualifiedName", `scan_and_ingest` raises before
any catalog call: the catalog-call log stays empty, so
`bulk_create_entities` is invoked zero times. -/
theorem missing_qualifiedName_no_catalog_call {μ : Type} (c : Connector μ)
    (md : μ) (ents : List EntityDict) (e : EntityDict)
    (hx : c.extract_metadata = .ok md)
    (ht : c.transform_to_atlas md = .ok ents)
    (he : e ∈ ents)
    (hq : containsKey (entityAttrs e) "qualifiedName" = false) :
    (∃ err, (scan_and_ingest c).1 = .error err) ∧ (scan_and_ingest c).2 = [] := by
  have hfail : entity_passes e = false := by
    simp [entity_passes, hq]
  obtain ⟨err, herr, _⟩ := validate_error_of_fail ents ⟨e, he, hfail⟩
  have hingest : ingest_to_purview ents = (.error err, []) := by
    simp [ingest_to_purview, herr]
  have hscan : scan_and_ingest c = (.error err, []) := by
    simp [scan_and_ingest, hx, ht, hingest]
  exact ⟨⟨err, by simp [hscan]⟩, by simp [hscan]⟩

/-- Witness for C4: the bad connector scan raises and performs zero
catalog calls. -/
theorem missing_qualifiedName_no_catalog_call_witness :
    (∃ err, (scan_and_ingest badConnector).1 = .error err)
    ∧ (scan_and_ingest badConnector).2 = [] :=
  missing_qualifiedName_no_catalog_call badConnector () [entityNoQualifiedName]
    entityNoQualifiedName rfl rfl (by simp) (by decide)

/-- C6: when no stage raises, `scan_and_ingest` returns exactly
`{status: "success", entities_extracted: |entities|, entities_created:
<from the catalog client bulk-create result>, metadata: <the raw
extracted metadata>}`; an exception raised by extraction,
transformation or validation propagates uncaught as the overall
result. -/
theorem scan_and_ingest_summary_spec {μ : Type} (c : Connector μ) :
    (∀ (md : μ) (ents : List EntityDict) (b : Bool),
      c.extract_metadata = .ok md → c.transform_to_atlas md = .ok ents →
      validate_entities ents = .ok b →
      (scan_and_ingest c).1 =
        .ok ⟨"success", ents.length, (bulk_create_entities ents).entities_created, md⟩)
    ∧ (∀ err : PyErr, c.extract_metadata = .error err → (scan_and_ingest c).1 = .error err)
    ∧ (∀ (md : μ) (err : PyErr), c.extract_metadata = .ok md →
        c.transform_to_atlas md = .error err → (scan_and_ingest c).1 = .error err)
    ∧ (∀ (md : μ) (ents : List EntityDict) (err : PyErr),
        c.extract_metadata = .ok md → c.transform_to_atlas md = .ok ents →
        validate_entities ents = .error err → (scan_and_ingest c).1 = .error err) := by
  refine ⟨?_, ?_, ?_, ?_⟩
  · intro md ents b hx ht hv
    simp [scan_and_ingest, hx, ht, ingest_to_purview, hv]
  · intro err hx
    simp [scan_and_ingest, hx]
  · intro md err hx ht
    simp [scan_and_ingest, hx, ht]
  · intro md ents err hx ht hv
    simp [scan_and_ingest, hx, ht, ingest_to_purview, hv]

/-- Witness for C6: a successful database connector scan returns
the exact summary shape. -/
theorem scan_and_ingest_summary_spec_witness :
    (scan_and_ingest (databaseConnector "postgresql")).1 =
      .ok ⟨"success", 5, 5, db_extract_metadata⟩ :=
  (scan_and_ingest_summary_spec (databaseConnector "postgresql")).1
    db_extract_metadata _ true rfl rfl rfl

/-- C2 (amended): for an entity whose own attribute dictionary has
distinct keys and contains neither "qualifiedName" nor "name",
serializing with `to_atlas_dict` and deserializing with
`from_atlas_dict` preserves `type_name`, `qualified_name` and `name`,
and returns the original attributes (equivalently, the original
attributes with the two promoted keys removed, which are absent here);
when the original attributes do contain a promoted key, its value
overrides the promoted field in the wire format and the round trip
reads that value back instead. -/
theorem to_from_atlas_roundtrip (e : Entity)
    (hnd : (e.attributes.map Prod.fst).Nodup)
    (hq : containsKey e.attributes "qualifiedName" = false)
    (hn : containsKey e.attributes "name" = false) :
    (Entity.from_atlas_dict (Entity.to_atlas_dict e)).map Entity.type_name = .ok e.type_name
    ∧ (Entity.from_atlas_dict (Entity.to_atlas_dict e)).map Entity.qualified_name =
        .ok e.qualified_name
    ∧ (Entity.from_atlas_dict (Entity.to_atlas_dict e)).map Entity.name = .ok e.name
    ∧ (Entity.from_atlas_dict (Entity.to_atlas_dict e)).map Entity.attributes =
        .ok (e.attributes.filter (fun kv => kv.1 != "qualifiedName" && kv.1 != "name"))
    ∧ (Entity.from_atlas_dict (Entity.to_atlas_dict e)).map Entity.attributes =
        .ok e.attributes := by
  have hq' := (containsKey_eq_false_iff e.attributes "qualifiedName").mp hq
  have hn' := (containsKey_eq_false_iff e.attributes "name").mp hn
  have hfresh : ∀ k ∈ e.attributes.map Prod.fst,
      containsKey [("qualifiedName", AVal.str e.qualified_name),
                   ("name", AVal.str e.name)] k = false := by
    intro k hk
    have h1 : k ≠ "qualifiedName" := by
      intro hEq
      subst hEq
      exact hq' hk
    have h2 : k ≠ "name" := by
      intro hEq
      subst hEq
      exact hn' hk
    simp [containsKey_cons, Ne.symm h1, Ne.symm h2]
  have hmerge : dictMerge
      [("qualifiedName", AVal.str e.qualified_name), ("name", AVal.str e.name)]
      e.attributes =
      [("qualifiedName", AVal.str e.qualified_name), ("name", AVal.str e.name)]
        ++ e.attributes :=
    dictMerge_of_fresh e.attributes _ hfresh hnd
  have hall : ∀ kv ∈ e.attributes, (kv.1 != "qualifiedName" && kv.1 != "name") = true := by
    intro kv hkv
    have hmem : kv.1 ∈ e.attributes.map Prod.fst := List.mem_map_of_mem Prod.fst hkv
    have h1 : kv.1 ≠ "qualifiedName" := by
      intro hEq
      exact hq' (hEq ▸ hmem)
    have h2 : kv.1 ≠ "name" := by
      intro hEq
      exact hn' (hEq ▸ hmem)
    simp [h1, h2]
  have hfilter : e.attributes.filter (fun kv => kv.1 != "qualifiedName" && kv.1 != "name") =
      e.attributes := List.filter_eq_self.mpr hall
  refine ⟨?_, ?_, ?_, ?_, ?_⟩ <;>
    rw [from_to_atlas_eq e] <;>
    simp [Except.map, hmerge, attrStrOr, hfilter]

/-- Witness for C2 at a concrete entity with plain attributes. -/
theorem to_from_atlas_roundtrip_witness :
    (Entity.from_atlas_dict (Entity.to_atlas_dict plainEntity)).map Entity.qualified_name =
      .ok "q"
    ∧ (Entity.from_atlas_dict (Entity.to_atlas_dict plainEntity)).map Entity.attributes =
      .ok [("size", AVal.int 10), ("owner", AVal.str "alice")] := by
  have h := to_from_atlas_roundtrip plainEntity (by decide) (by decide) (by decide)
  exact ⟨h.2.1, h.2.2.2.2⟩

/-- Counterexample to C2 as stated: when the original attributes
contain "qualifiedName", its value overrides the promoted field, so
the round trip returns that value ("x") instead of the original
qualified name ("q"). -/
theorem roundtrip_promoted_key_counterexample :
    (Entity.from_atlas_dict (Entity.to_atlas_dict entityWithPromotedKey)).map
        Entity.qualified_name = .ok "x"
    ∧ entityWithPromotedKey.qualified_name = "q"
    ∧ ("x" : String) ≠ "q" :=
  ⟨rfl, rfl, by decide⟩

/-- C3 (amended): with a non-empty extension allow-list and an
existing root, `extract_metadata` keeps exactly the files whose
lowercased extension is a member of the allow-list as configured —
the match ignores the case of the extension of the file but is sensitive
to the case of the configured entries — and directory records are
never excluded by the extension filter. -/
theorem extension_filter_spec (exts : List String) (fs : FileSystem)
    (hne : exts ≠ []) (hroot : fs.rootExists = true) :
    (fs_extract_metadata (some exts) fs).files = fs.items.filterMap (fileKeep exts)
    ∧ (fs_extract_metadata (some exts) fs).directories = fs.items.filterMap dirKeep := by
  have h := scanItems_spec exts hne fs.items
  simp [fs_extract_metadata, hroot, h.1, h.2]

/-- Witness for C3 at the spec filesystem scenario: allow-list
`[".csv"]`, one matching file, one non-matching file, one
subdirectory. -/
theorem extension_filter_spec_witness :
    (fs_extract_metadata (some [".csv"]) demoFS).files =
      [⟨"a.csv", "/data/a.csv", 100, ".csv", 0⟩]
    ∧ (fs_extract_metadata (some [".csv"]) demoFS).directories =
      [⟨"sub", "/data/sub"⟩] := by
  have h := extension_filter_spec [".csv"] demoFS (by decide) rfl
  exact ⟨h.1.trans (by rfl), h.2.trans (by rfl)⟩

/-- Counterexample to C3 as stated: a file whose extension ".csv" is a
case-insensitive member of the allow-list [".CSV"] (both lowercase to
".csv") is nevertheless excluded, because the code lowercases only the
extension of the file and compares it to the configured entries as
written. -/
theorem extension_filter_case_counterexample :
    (fs_extract_metadata (some [".CSV"]) upperListFS).files = []
    ∧ upperListFS.items = [.file "a.csv" "/r/a.csv" ".csv" 100 0]
    ∧ pyLower ".CSV" = pyLower ".csv" :=
  ⟨rfl, rfl, rfl⟩

end PurviewSDK
